import Mathlib

/-
Shallow embedding of the `analise` command of danielleitelima/starter-go-cli
(src/unnamed/part_000, package cmd), a Go CLI that

  1. resolves the LLM endpoint and translation language
     (flag, then environment variable, then literal default),
  2. POSTs a segmentation request to the endpoint, decodes the
     `{"response": "..."}` envelope, decodes the inner payload as a
     JSON array of strings,
  3. sequentially POSTs one translation request per segment, decoding the
     same envelope shape,
  4. serializes the accumulated `[]ResultItem` with
     `json.MarshalIndent(results, "", "    ")` and prints it.

The HTTP endpoint is modelled as an oracle `String → String → HttpResult`
(URL and request body to response); `encoding/json` calls are modelled by
executable functions specialized to the Go types they are invoked at,
including Go quirks: `null` unmarshals into a `[]string` as a nil slice
without error, a missing `response` key leaves the struct field at its
zero value `""`, and `MarshalIndent` of a nil slice prints `null`.
-/

namespace StarterGoCli

/-! ## JSON values and a parser mirroring Go `encoding/json` input validation -/

/-- JSON value AST. Number lexemes are kept as raw text: the program never
reads numeric values, only strings, arrays and objects. -/
inductive JVal where
  | jnull
  | jbool (b : Bool)
  | jnum (lexeme : String)
  | jstr (s : String)
  | jarr (elems : List JVal)
  | jobj (fields : List (String × JVal))

/-- JSON whitespace, as in Go `encoding/json` (scanner `isSpace`). -/
def isWs (c : Char) : Bool :=
  c = ' ' || c = '\t' || c = '\n' || c = '\r'

/-- Drop leading JSON whitespace. -/
def skipWs : List Char → List Char
  | [] => []
  | c :: cs => if isWs c then skipWs cs else c :: cs

/-- Consume an expected literal character sequence, returning the rest. -/
def dropLit : List Char → List Char → Option (List Char)
  | [], cs => some cs
  | _ :: _, [] => none
  | k :: ks, c :: cs => if c = k then dropLit ks cs else none

/-- Value of one hexadecimal digit. -/
def hexDigitVal (c : Char) : Option Nat :=
  if '0' ≤ c ∧ c ≤ '9' then some (c.toNat - '0'.toNat)
  else if 'a' ≤ c ∧ c ≤ 'f' then some (c.toNat - 'a'.toNat + 10)
  else if 'A' ≤ c ∧ c ≤ 'F' then some (c.toNat - 'A'.toNat + 10)
  else none

/-- Parse exactly four hex digits (the `XXXX` of a `\uXXXX` escape). -/
def parseHex4 : List Char → Option (Nat × List Char)
  | a :: b :: c :: d :: rest => do
    let va ← hexDigitVal a
    let vb ← hexDigitVal b
    let vc ← hexDigitVal c
    let vd ← hexDigitVal d
    some (((va * 16 + vb) * 16 + vc) * 16 + vd, rest)
  | _ => none

/-- Body of a JSON string after the opening quote, with Go's escape
handling: raw control characters are rejected, `\uXXXX` surrogate pairs are
combined, and a lone surrogate half becomes U+FFFD (Go `unquoteBytes`). -/
def parseStrRest : Nat → List Char → List Char → Option (String × List Char)
  | 0, _, _ => none
  | _ + 1, _, [] => none
  | fuel + 1, acc, c :: cs =>
    if c = '"' then some (String.mk acc.reverse, cs)
    else if c = '\\' then
      match cs with
      | [] => none
      | e :: cs2 =>
        if e = '"' then parseStrRest fuel ('"' :: acc) cs2
        else if e = '\\' then parseStrRest fuel ('\\' :: acc) cs2
        else if e = '/' then parseStrRest fuel ('/' :: acc) cs2
        else if e = 'b' then parseStrRest fuel (Char.ofNat 8 :: acc) cs2
        else if e = 'f' then parseStrRest fuel (Char.ofNat 12 :: acc) cs2
        else if e = 'n' then parseStrRest fuel ('\n' :: acc) cs2
        else if e = 'r' then parseStrRest fuel ('\r' :: acc) cs2
        else if e = 't' then parseStrRest fuel ('\t' :: acc) cs2
        else if e = 'u' then
          match parseHex4 cs2 with
          | none => none
          | some (n, cs3) =>
            if 0xD800 ≤ n ∧ n < 0xDC00 then
              match cs3 with
              | '\\' :: 'u' :: cs4 =>
                match parseHex4 cs4 with
                | some (m, cs5) =>
                  if 0xDC00 ≤ m ∧ m < 0xE000 then
                    parseStrRest fuel
                      (Char.ofNat (0x10000 + (n - 0xD800) * 0x400 + (m - 0xDC00)) :: acc) cs5
                  else parseStrRest fuel (Char.ofNat 0xFFFD :: acc) cs3
                | none => parseStrRest fuel (Char.ofNat 0xFFFD :: acc) cs3
              | _ => parseStrRest fuel (Char.ofNat 0xFFFD :: acc) cs3
            else if 0xDC00 ≤ n ∧ n < 0xE000 then
              parseStrRest fuel (Char.ofNat 0xFFFD :: acc) cs3
            else parseStrRest fuel (Char.ofNat n :: acc) cs3
        else none
    else if c.toNat < 0x20 then none
    else parseStrRest fuel (c :: acc) cs

/-- Take a maximal run of decimal digits. -/
def takeDigits : List Char → List Char × List Char
  | [] => ([], [])
  | c :: cs =>
    if '0' ≤ c ∧ c ≤ '9' then
      match takeDigits cs with
      | (ds, rest) => (c :: ds, rest)
    else ([], c :: cs)

/-- Integer part of a JSON number: `0`, or a nonzero digit followed by
digits (Go scanner `state1`/`state0`). Returns consumed lexeme and rest. -/
def parseIntPart : List Char → Option (List Char × List Char)
  | [] => none
  | c :: cs =>
    if c = '0' then some ([c], cs)
    else if '1' ≤ c ∧ c ≤ '9' then
      match takeDigits cs with
      | (ds, rest) => some (c :: ds, rest)
    else none

/-- Exponent tail of a JSON number: optional sign, then at least one
digit. `pre` is the lexeme consumed so far, `ec` the `e`/`E` character. -/
def parseExpTail (pre : List Char) (ec : Char) (t : List Char) :
    Option (List Char × List Char) :=
  let sgnSplit : List Char × List Char := match t with
    | '+' :: u => ([('+' : Char)], u)
    | '-' :: u => ([('-' : Char)], u)
    | u => ([], u)
  match takeDigits sgnSplit.2 with
  | ([], _) => none
  | (ds, rest) => some (pre ++ ec :: sgnSplit.1 ++ ds, rest)

/-- JSON number grammar as enforced by Go's scanner: optional minus,
integer part, optional fraction, optional exponent. A `.` not followed by
a digit is rejected. -/
def parseNumber (cs : List Char) : Option (List Char × List Char) :=
  let negSplit : List Char × List Char := match cs with
    | '-' :: t => ([('-' : Char)], t)
    | t => ([], t)
  match parseIntPart negSplit.2 with
  | none => none
  | some (ip, cs2) =>
    match cs2 with
    | '.' :: t =>
      match takeDigits t with
      | ([], _) => none
      | (ds, cs3) =>
        match cs3 with
        | 'e' :: u => parseExpTail (negSplit.1 ++ ip ++ '.' :: ds) 'e' u
        | 'E' :: u => parseExpTail (negSplit.1 ++ ip ++ '.' :: ds) 'E' u
        | u => some (negSplit.1 ++ ip ++ '.' :: ds, u)
    | 'e' :: u => parseExpTail (negSplit.1 ++ ip) 'e' u
    | 'E' :: u => parseExpTail (negSplit.1 ++ ip) 'E' u
    | u => some (negSplit.1 ++ ip, u)

mutual

/-- Parse one JSON value after skipping leading whitespace. Fuel bounds the
nesting recursion; callers supply more fuel than the input length. -/
def parseVal : Nat → List Char → Option (JVal × List Char)
  | 0, _ => none
  | fuel + 1, cs =>
    match skipWs cs with
    | [] => none
    | c :: rest =>
      if c = 'n' then (dropLit ['u', 'l', 'l'] rest).map (fun r => (JVal.jnull, r))
      else if c = 't' then (dropLit ['r', 'u', 'e'] rest).map (fun r => (JVal.jbool true, r))
      else if c = 'f' then (dropLit ['a', 'l', 's', 'e'] rest).map (fun r => (JVal.jbool false, r))
      else if c = '"' then
        (parseStrRest (rest.length + 1) [] rest).map (fun p => (JVal.jstr p.1, p.2))
      else if c = '[' then
        match skipWs rest with
        | ']' :: r2 => some (JVal.jarr [], r2)
        | r2 => (parseElems fuel r2).map (fun p => (JVal.jarr p.1, p.2))
      else if c.toNat = 0x7b then
        match skipWs rest with
        | '\x7d' :: r2 => some (JVal.jobj [], r2)
        | r2 => (parseFields fuel r2).map (fun p => (JVal.jobj p.1, p.2))
      else
        (parseNumber (c :: rest)).map (fun p => (JVal.jnum (String.mk p.1), p.2))

/-- Nonempty comma-separated list of array elements up to `]`. -/
def parseElems : Nat → List Char → Option (List JVal × List Char)
  | 0, _ => none
  | fuel + 1, cs =>
    match parseVal fuel cs with
    | none => none
    | some (v, rest) =>
      match skipWs rest with
      | ',' :: r2 => (parseElems fuel r2).map (fun p => (v :: p.1, p.2))
      | ']' :: r2 => some ([v], r2)
      | _ => none

/-- Nonempty comma-separated list of `"key": value` fields up to `}`. -/
def parseFields : Nat → List Char → Option (List (String × JVal) × List Char)
  | 0, _ => none
  | fuel + 1, cs =>
    match skipWs cs with
    | '"' :: r1 =>
      match parseStrRest (r1.length + 1) [] r1 with
      | none => none
      | some (k, r2) =>
        match skipWs r2 with
        | ':' :: r3 =>
          match parseVal fuel r3 with
          | none => none
          | some (v, r4) =>
            match skipWs r4 with
            | ',' :: r5 => (parseFields fuel r5).map (fun p => ((k, v) :: p.1, p.2))
            | c :: r5 => if c.toNat = 0x7d then some ([(k, v)], r5) else none
            | _ => none
        | _ => none
    | _ => none

end

/-- Parse a whole string as a single JSON value: one value, with only
whitespace around it, as Go `json.Unmarshal` validates its input. -/
def parseJSON (s : String) : Option JVal :=
  match parseVal (s.data.length + 1) s.data with
  | none => none
  | some (v, rest) => if (skipWs rest).isEmpty then some v else none

/-! ## `json.Unmarshal` specialized at the program's Go types -/

/-- ASCII lower-casing of one character, as Go's field-name folding does
for the ASCII keys relevant here. -/
def lowerAscii (c : Char) : Char :=
  if 'A' ≤ c ∧ c ≤ 'Z' then Char.ofNat (c.toNat + 32) else c

/-- Go's field matching for the `response` key of `ResponsePayload` /
`TranslationResponse` (both have a single field tagged `json:"response"`):
an exact match or a case-insensitive match (ASCII folding suffices for
this key). -/
def keyMatchesResponse (k : String) : Bool :=
  k.data.map lowerAscii == "response".data

/-- Walk the object fields the way Go's decoder does: every field whose key
matches `response` is decoded into the struct's string field in order (the
last occurrence wins), a JSON `null` leaves the field untouched, and a
matching value of any other type records an unmarshal type error that is
reported after the whole object is consumed. -/
def envFieldFold : List (String × JVal) → String → Bool → Except Unit String
  | [], cur, errored => if errored then .error () else .ok cur
  | (k, v) :: rest, cur, errored =>
    if keyMatchesResponse k then
      match v with
      | .jstr s => envFieldFold rest s errored
      | .jnull => envFieldFold rest cur errored
      | _ => envFieldFold rest cur true
    else envFieldFold rest cur errored

/-- `json.Unmarshal(body, &payload)` where the target is a Go struct with a
single string field tagged `json:"response"` (`ResponsePayload` and
`TranslationResponse` are both of this shape). A JSON `null` or an object
without the key leaves the field at its zero value `""`; a non-object,
non-null document or a non-string field value is an error. -/
def decodeEnvelope (body : String) : Except Unit String :=
  match parseJSON body with
  | none => .error ()
  | some .jnull => .ok ""
  | some (.jobj fs) => envFieldFold fs "" false
  | some _ => .error ()

/-- Element-wise decoding of a JSON array into Go `[]string`: strings are
taken as-is and a `null` element leaves that slot at `""`; any other
element type is an unmarshal type error. -/
def decodeStringElems : List JVal → Except Unit (List String)
  | [] => .ok []
  | .jstr x :: rest => (decodeStringElems rest).map (fun xs => x :: xs)
  | .jnull :: rest => (decodeStringElems rest).map (fun xs => "" :: xs)
  | _ :: _ => .error ()

/-- `json.Unmarshal([]byte(s), &sections)` with `sections : []string`:
a JSON `null` decodes to the nil slice without error (a Go quirk), an array
decodes element-wise, anything else is an error. -/
def decodeStringArray (s : String) : Except Unit (List String) :=
  match parseJSON s with
  | none => .error ()
  | some .jnull => .ok []
  | some (.jarr vs) => decodeStringElems vs
  | some _ => .error ()

/-! ## `json.Marshal` / `json.MarshalIndent` at the program's Go types -/

/-- Lower-case hex digit character for `n < 16`. -/
def hexDigitChar (n : Nat) : Char :=
  if n < 10 then Char.ofNat ('0'.toNat + n) else Char.ofNat ('a'.toNat + n - 10)

/-- Go `encoding/json` string escaping with its default HTML escaping:
quote, backslash, the short escapes for newline/CR/tab, `\u00XX` for other
control characters, `<`/`>`/`&` for `<`/`>`/`&`, and
` `/` ` for the two Unicode line separators. -/
def escChar (c : Char) : List Char :=
  if c = '"' then ['\\', '"']
  else if c = '\\' then ['\\', '\\']
  else if c = '\n' then ['\\', 'n']
  else if c = '\r' then ['\\', 'r']
  else if c = '\t' then ['\\', 't']
  else if c = '<' then ['\\', 'u', '0', '0', '3', 'c']
  else if c = '>' then ['\\', 'u', '0', '0', '3', 'e']
  else if c = '&' then ['\\', 'u', '0', '0', '2', '6']
  else if c.toNat < 0x20 then
    ['\\', 'u', '0', '0', hexDigitChar (c.toNat / 16), hexDigitChar (c.toNat % 16)]
  else if c.toNat = 0x2028 then ['\\', 'u', '2', '0', '2', '8']
  else if c.toNat = 0x2029 then ['\\', 'u', '2', '0', '2', '9']
  else [c]

/-- A Go-marshalled JSON string literal: quotes around the escaped text. -/
def goQuote (s : String) : String :=
  String.mk ('"' :: s.data.foldr (fun c acc => escChar c ++ acc) ['"'])

/-! ## The program's data model (src/unnamed/part_000) -/

/-- Go `ResultItem{Source string json:"source"; Translation string
json:"translation"}`. -/
structure ResultItem where
  source : String
  translation : String
deriving DecidableEq

/-- `json.Marshal` of `RequestPayload` / `TranslationPayload` (identical Go
struct shapes): compact object with field order `model`, `prompt`,
`stream`. -/
def marshalGenRequest (model prompt : String) (stream : Bool) : String :=
  "\x7b\"model\":" ++ goQuote model ++ ",\"prompt\":" ++ goQuote prompt ++
    ",\"stream\":" ++ (if stream then "true" else "false") ++ "\x7d"

/-- One element of `json.MarshalIndent(results, "", "    ")`: a 4-space
indented object with key order `source` then `translation`. -/
def marshalResultItemIndented (r : ResultItem) : String :=
  "    \x7b\n        \"source\": " ++ goQuote r.source ++
    ",\n        \"translation\": " ++ goQuote r.translation ++ "\n    \x7d"

/-- `json.MarshalIndent(results, "", "    ")` for `results : []ResultItem`.
In the program `results` is built only by `append` on a nil slice, so the
empty case is the nil slice, which Go marshals as `null`. -/
def marshalResults : List ResultItem → String
  | [] => "null"
  | r :: rest =>
    "[\n" ++ String.intercalate ",\n" ((r :: rest).map marshalResultItemIndented) ++ "\n]"

/-! ## HTTP transport oracle -/

/-- Outcome of one `http.Post`: a transport-level failure carrying the Go
error text, or a status code with a response body. -/
inductive HttpResult where
  | transportErr (msg : String)
  | success (status : Nat) (body : String)

/-- The generation endpoint, modelled as a function from URL and request
body to response. Using a function makes the endpoint deterministic by
construction: identical requests receive identical responses. -/
def Oracle : Type := String → String → HttpResult

/-! ## Prompts (the two fmt.Sprintf templates of analiseCmd) -/

/-- The segmentation prompt of `analiseCmd`, with the input text
substituted for the `%s` verb. -/
def segPrompt (text : String) : String :=
  "Divide the text below into small sections, each representing a particular thought or idea. Use grammar as a basis and avoid creating a section with a single word. You can break a phrase into subject and predicate.\n\nExample text:\n\nHey, kannst du mir den heutigen Mittagsmenü schicken? Ich bin gerade total eingebunden bei der Arbeit und schaffe es nicht reinzukommen.\n\nExample output:\n\n[\n    \"Hey\",\n    \"kannst du mir\",\n    \"den heutigen Mittagsmenü schicken?\",\n    \"Ich bin gerade\",\n    \"total eingebunden\",\n    \"bei der Arbeit\",\n    \"und\",\n    \"schaffe es nicht reinzukommen.\"\n]\n\nActual text:\n\n" ++ text ++ "\n\nActual output:\n\nProvide only the JSON array as the output without any additional text or explanation."

/-- The per-segment translation prompt of `analiseCmd`. -/
def transPrompt (lang seg : String) : String :=
  "Translate the following text to " ++ lang ++ ":\n\n" ++ seg ++
    "\n\nProvide only the translation without any additional text or explanation."

/-- Request body of the segmentation call: `RequestPayload{Model: "llama3",
Prompt: prompt, Stream: false}` marshalled. -/
def segBody (text : String) : String :=
  marshalGenRequest "llama3" (segPrompt text) false

/-- Request body of one translation call: `TranslationPayload{Model:
"llama3", Prompt: translationPrompt, Stream: false}` marshalled. -/
def transBody (lang seg : String) : String :=
  marshalGenRequest "llama3" (transPrompt lang seg) false

/-! ## Failure sites and standard-output events -/

/-- The fatal-error sites of `analiseCmd`, each ending in `os.Exit(1)`.
The two marshalling error checks of the Go code are unreachable (marshalling
strings and booleans cannot fail) and are not failure cases here. -/
inductive Failure where
  | transportSeg (msg : String)
  | statusSeg (code : Nat)
  | decodeEnvSeg
  | decodeArrSeg
  | transportTrans (msg : String)
  | statusTrans (code : Nat)
  | decodeTrans
deriving DecidableEq

/-- One chunk written to standard output. `line s` is `s` followed by a
newline (the program prints with `fmt.Println` / a `\n`-terminated
`fmt.Printf`). `decodeDiag pfx` is a JSON-decode diagnostic line whose text
is `pfx`, a space, and the `encoding/json` error text, then a newline. -/
inductive OutEvent where
  | line (s : String)
  | decodeDiag (pfx : String)
deriving DecidableEq

/-- The diagnostic line each failure site prints before `os.Exit(1)`. -/
def failureEvent : Failure → OutEvent
  | .transportSeg m => .line ("Error making HTTP request: " ++ m)
  | .statusSeg c => .line ("Error: received status code " ++ toString c)
  | .decodeEnvSeg => .decodeDiag "Error parsing JSON response:"
  | .decodeArrSeg => .decodeDiag "Error parsing response array:"
  | .transportTrans m => .line ("Error making HTTP request for translation: " ++ m)
  | .statusTrans c => .line ("Error: received status code " ++ toString c ++ " for translation")
  | .decodeTrans => .decodeDiag "Error parsing translation JSON response:"

/-! ## The two stages and the pipeline -/

/-- The segmentation HTTP exchange: POST the segmentation request, then,
as the Go code does, fail on transport error, then on a status other than
200, then on an envelope that does not decode. Yields the inner
`response` text. -/
def segStep (o : Oracle) (url text : String) : Except Failure String :=
  match o url (segBody text) with
  | .transportErr m => .error (.transportSeg m)
  | .success code body =>
    if code = 200 then
      match decodeEnvelope body with
      | .ok inner => .ok inner
      | .error _ => .error .decodeEnvSeg
    else .error (.statusSeg code)

/-- The full segmentation stage: the HTTP exchange, then parsing the inner
text as a Go `[]string`. -/
def segmentationOutcome (o : Oracle) (url text : String) : Except Failure (List String) :=
  match segStep o url text with
  | .error f => .error f
  | .ok inner =>
    match decodeStringArray inner with
    | .ok sections => .ok sections
    | .error _ => .error .decodeArrSeg

/-- One translation HTTP exchange for segment `seg`: POST, fail on
transport error, then on non-200 status, then on an undecodable envelope;
the decoded `response` text is used verbatim as the translation. -/
def transStep (o : Oracle) (url lang seg : String) : Except Failure String :=
  match o url (transBody lang seg) with
  | .transportErr m => .error (.transportTrans m)
  | .success code body =>
    if code = 200 then
      match decodeEnvelope body with
      | .ok t => .ok t
      | .error _ => .error .decodeTrans
    else .error (.statusTrans code)

/-- The sequential translation loop over the segment list, in order.
Returns the translation POSTs issued (as URL–body pairs, stopping at the
first failing exchange) and either the first failure or the accumulated
result items. -/
def translateLoop (o : Oracle) (url lang : String) :
    List String → List (String × String) × Except Failure (List ResultItem)
  | [] => ([], .ok [])
  | s :: rest =>
    match transStep o url lang s with
    | .error f => ([(url, transBody lang s)], .error f)
    | .ok t =>
      let tail := translateLoop o url lang rest
      ((url, transBody lang s) :: tail.1,
        match tail.2 with
        | .ok items => .ok (⟨s, t⟩ :: items)
        | .error f => .error f)

/-- The whole request pipeline of `analiseCmd` after configuration has been
resolved: segmentation, then the translation loop. Returns all POSTs issued
(the segmentation call first) and the outcome. -/
def pipeline (o : Oracle) (url lang text : String) :
    List (String × String) × Except Failure (List ResultItem) :=
  match segmentationOutcome o url text with
  | .error f => ([(url, segBody text)], .error f)
  | .ok sections =>
    let tail := translateLoop o url lang sections
    ((url, segBody text) :: tail.1, tail.2)

/-! ## Configuration resolution and the command's observable run -/

/-- The process-level inputs. A flag is `none` when not given on the
command line; the environment values are what `os.Getenv` returns, the
empty string standing for an unset variable. -/
structure Config where
  flagLlmHost : Option String
  flagTranslationLanguage : Option String
  envLlmHost : String
  envTranslationLanguage : String

/-- `cmd.Flags().GetString(name)` for a flag registered with default `""`:
the set value, or `""` when the flag was not given. (The error return of
`GetString` only fires for an unregistered flag name and is unreachable.) -/
def getStringFlag (v : Option String) : String :=
  v.getD ""

/-- The three-tier resolution the Go code performs for each setting: keep a
non-empty flag value; otherwise use a non-empty environment value;
otherwise use the literal default and print a notice line. Returns the
resolved value and the notice lines printed. -/
def resolveSetting (flagV envV dflt noticeLabel : String) : String × List OutEvent :=
  if flagV = "" then
    if envV = "" then (dflt, [.line (noticeLabel ++ dflt)])
    else (envV, [])
  else (flagV, [])

/-- Literal default endpoint of `analiseCmd`. -/
def defaultLlmHost : String := "http://localhost:11434/api/generate"

/-- Literal default translation language of `analiseCmd`. -/
def defaultTranslationLanguage : String := "en-US"

/-- Notice label printed when the endpoint falls back to its default. -/
def hostNoticeLabel : String := "Using default Ollama host: "

/-- Notice label printed when the language falls back to its default. -/
def langNoticeLabel : String := "Using default translation language: "

/-- The endpoint URL a run with configuration `cfg` uses. -/
def cfgHost (cfg : Config) : String :=
  (resolveSetting (getStringFlag cfg.flagLlmHost) cfg.envLlmHost defaultLlmHost
    hostNoticeLabel).1

/-- The translation language a run with configuration `cfg` uses. -/
def cfgLang (cfg : Config) : String :=
  (resolveSetting (getStringFlag cfg.flagTranslationLanguage) cfg.envTranslationLanguage
    defaultTranslationLanguage langNoticeLabel).1

/-- The default-resolution notice lines a run with configuration `cfg`
prints, host notice first, exactly as the Go code orders them. -/
def cfgNotices (cfg : Config) : List OutEvent :=
  (resolveSetting (getStringFlag cfg.flagLlmHost) cfg.envLlmHost defaultLlmHost
    hostNoticeLabel).2 ++
  (resolveSetting (getStringFlag cfg.flagTranslationLanguage) cfg.envTranslationLanguage
    defaultTranslationLanguage langNoticeLabel).2

/-- Everything a run observably does: what was written to standard output,
in order; the process exit status (0 on normal completion, 1 via
`os.Exit(1)` at the first error); and the POSTs issued. -/
structure RunResult where
  events : List OutEvent
  exitCode : Nat
  calls : List (String × String)
deriving DecidableEq

/-- The `Run` function of `analiseCmd` for input `text`: resolve the two
settings (printing notices), run the pipeline, and either print the first
error's diagnostic and exit 1, or print `MarshalIndent` of the results and
finish with exit status 0. -/
def analiseRun (text : String) (cfg : Config) (o : Oracle) : RunResult :=
  let pr := pipeline o (cfgHost cfg) (cfgLang cfg) text
  match pr.2 with
  | .error f => ⟨cfgNotices cfg ++ [failureEvent f], 1, pr.1⟩
  | .ok results => ⟨cfgNotices cfg ++ [.line (marshalResults results)], 0, pr.1⟩

/-! ## Spec-side predicate and concrete test doubles -/

/-- The spec's notion of "valid JSON array-of-strings syntax": the text
parses as a JSON array whose elements are all strings. Written from the
spec's words, to be compared against `decodeStringArray`, the decoding the
code actually performs. -/
def specStringArraySyntax (s : String) : Bool :=
  match parseJSON s with
  | some (.jarr vs) => vs.all (fun v => match v with | .jstr _ => true | _ => false)
  | _ => false

/-- A configuration with both flags set (no default fallback, no notices). -/
def cfgFlags : Config := ⟨some "h", some "L", "", ""⟩

/-- A configuration with nothing set: both settings fall back to their
literal defaults and print notices. -/
def cfgDefaults : Config := ⟨none, none, "", ""⟩

/-- Stub endpoint for the C1 scenario: segmentation answers
`{"response": "[\"a\",\"b\"]"}`, the two translation calls answer `A` and
`B` in the same envelope. -/
def oStubAB : Oracle := fun _ body =>
  if body = segBody "x" then .success 200 "\x7b\"response\": \"[\\\"a\\\",\\\"b\\\"]\"\x7d"
  else if body = transBody "L" "a" then .success 200 "\x7b\"response\": \"A\"\x7d"
  else if body = transBody "L" "b" then .success 200 "\x7b\"response\": \"B\"\x7d"
  else .transportErr "unreachable"

/-- Stub endpoint whose segmentation answer has the empty inner array. -/
def oEmptySeg : Oracle := fun _ _ => .success 200 "\x7b\"response\": \"[]\"\x7d"

/-- Stub endpoint whose segmentation answer has inner text `null`. -/
def oNullSeg : Oracle := fun _ _ => .success 200 "\x7b\"response\": \"null\"\x7d"

/-- Stub endpoint whose segmentation answer has inner text `not json`. -/
def oNotJsonSeg : Oracle := fun _ _ => .success 200 "\x7b\"response\": \"not json\"\x7d"

/-- Stub endpoint for the C3 scenario: segmentation yields `["a","b"]`,
the translation of `a` succeeds, every other call gets HTTP 500. -/
def oStatusFail : Oracle := fun _ body =>
  if body = segBody "x" then .success 200 "\x7b\"response\": \"[\\\"a\\\",\\\"b\\\"]\"\x7d"
  else if body = transBody "L" "a" then .success 200 "\x7b\"response\": \"A\"\x7d"
  else .success 500 "oops"

/-- Stub endpoint that is unreachable: every POST fails at transport level. -/
def oDown : Oracle := fun _ _ => .transportErr "connection refused"

/-- Stub endpoint answering every call with status 200 and body `{}`. -/
def oEmptyObj : Oracle := fun _ body =>
  if body = segBody "x" then .success 200 "\x7b\"response\": \"[\\\"a\\\"]\"\x7d"
  else .success 200 "\x7b\x7d"

/-! ## Helper lemmas -/

/-- Unfolding a successful segmentation HTTP exchange. -/
theorem segStep_ok (o : Oracle) (url text body inner : String)
    (h : o url (segBody text) = .success 200 body)
    (hd : decodeEnvelope body = .ok inner) :
    segStep o url text = .ok inner := by
  simp [segStep, h, hd]

/-- A successful segmentation stage from a successful exchange and a
successful `[]string` decode. -/
theorem segmentationOutcome_ok (o : Oracle) (url text body inner : String)
    (sections : List String)
    (h : o url (segBody text) = .success 200 body)
    (hd : decodeEnvelope body = .ok inner)
    (ha : decodeStringArray inner = .ok sections) :
    segmentationOutcome o url text = .ok sections := by
  simp [segmentationOutcome, segStep_ok o url text body inner h hd, ha]

/-- Unfolding a successful translation HTTP exchange. -/
theorem transStep_ok (o : Oracle) (url lang seg body t : String)
    (h : o url (transBody lang seg) = .success 200 body)
    (hd : decodeEnvelope body = .ok t) :
    transStep o url lang seg = .ok t := by
  simp [transStep, h, hd]

/-- The first translation failure is the loop's outcome: if every segment
before `s` translates and `s` fails, the loop fails with that failure. -/
theorem translateLoop_error_after (o : Oracle) (url lang s : String)
    (post : List String) (f : Failure) :
    ∀ pre : List String, (∀ x ∈ pre, ∃ t, transStep o url lang x = .ok t) →
      transStep o url lang s = .error f →
      (translateLoop o url lang (pre ++ s :: post)).2 = .error f := by
  intro pre
  induction pre with
  | nil =>
    intro _ hs
    simp [translateLoop, hs]
  | cons a as ih =>
    intro hpre hs
    obtain ⟨t, ht⟩ := hpre a (by simp)
    have ihh := ih (fun x hx => hpre x (by simp [hx])) hs
    simp [translateLoop, ht, ihh]

/-- On any pipeline failure the run prints only the notices and the
failure's diagnostic, and exits with status 1. -/
theorem analiseRun_error (text : String) (cfg : Config) (o : Oracle) (f : Failure)
    (h : (pipeline o (cfgHost cfg) (cfgLang cfg) text).2 = .error f) :
    analiseRun text cfg o =
      ⟨cfgNotices cfg ++ [failureEvent f], 1,
       (pipeline o (cfgHost cfg) (cfgLang cfg) text).1⟩ := by
  simp [analiseRun, h]

/-- The run's issued POSTs are exactly the pipeline's, on success and on
failure alike. -/
theorem analiseRun_calls (text : String) (cfg : Config) (o : Oracle) :
    (analiseRun text cfg o).calls = (pipeline o (cfgHost cfg) (cfgLang cfg) text).1 := by
  cases h : (pipeline o (cfgHost cfg) (cfgLang cfg) text).2 <;> simp [analiseRun, h]

/-- The first POST of any pipeline run is the segmentation request. -/
theorem pipeline_calls_head (o : Oracle) (url lang text : String) :
    (pipeline o url lang text).1.head? = some (url, segBody text) := by
  cases h : segmentationOutcome o url text <;> simp [pipeline, h]

/-- An object none of whose keys matches `response` leaves the struct
field untouched. -/
theorem envFieldFold_no_match (cur : String) :
    ∀ fs : List (String × JVal), (∀ p ∈ fs, keyMatchesResponse p.1 = false) →
      envFieldFold fs cur false = .ok cur := by
  intro fs
  induction fs with
  | nil => intro _; rfl
  | cons p ps ih =>
    intro h
    obtain ⟨k, v⟩ := p
    have hk : keyMatchesResponse k = false := h (k, v) (by simp)
    simp [envFieldFold, hk]
    exact ih (fun q hq => h q (by simp [hq]))

/-! ## Claims -/

set_option maxRecDepth 40000

/-- C1: for a stubbed endpoint whose segmentation call returns the body
`{"response": "[\"a\",\"b\"]"}` and whose two per-segment translation calls
return `A` and `B` wrapped in the same envelope, the pipeline's result list
is exactly `[{source: a, translation: A}, {source: b, translation: B}]`,
in segmentation order, each item's source the corresponding segment. -/
theorem c1_stub_pipeline_output (host lang text : String) (o : Oracle) (bA bB : String)
    (hseg : o host (segBody text) =
      .success 200 "\x7b\"response\": \"[\\\"a\\\",\\\"b\\\"]\"\x7d")
    (ha : o host (transBody lang "a") = .success 200 bA)
    (hda : decodeEnvelope bA = .ok "A")
    (hb : o host (transBody lang "b") = .success 200 bB)
    (hdb : decodeEnvelope bB = .ok "B") :
    (pipeline o host lang text).2 = .ok [⟨"a", "A"⟩, ⟨"b", "B"⟩] := by
  have hd : decodeEnvelope "\x7b\"response\": \"[\\\"a\\\",\\\"b\\\"]\"\x7d" =
      .ok "[\"a\",\"b\"]" := rfl
  have harr : decodeStringArray "[\"a\",\"b\"]" = .ok ["a", "b"] := rfl
  have h2 := segmentationOutcome_ok o host text _ _ ["a", "b"] hseg hd harr
  have hta := transStep_ok o host lang "a" bA "A" ha hda
  have htb := transStep_ok o host lang "b" bB "B" hb hdb
  simp [pipeline, h2, translateLoop, hta, htb]

/-- C1 witness: the stub oracle `oStubAB` at text `x`, host `h`,
language `L`. -/
theorem c1_witness :
    (pipeline oStubAB "h" "L" "x").2 =
      .ok [⟨"a", "A"⟩, ⟨"b", "B"⟩] :=
  c1_stub_pipeline_output "h" "L" "x" oStubAB
    "\x7b\"response\": \"A\"\x7d" "\x7b\"response\": \"B\"\x7d"
    rfl rfl rfl rfl rfl

/-- C2 counterexample: a successful run (flags and environment unset, the
segmentation stage detecting zero segments) exits with status 0 but writes
two default-resolution notice lines and then the literal `null` — not a
JSON array, and not the only text on standard output. -/
theorem c2_counterexample :
    (analiseRun "t" cfgDefaults oEmptySeg).exitCode = 0 ∧
    (analiseRun "t" cfgDefaults oEmptySeg).events =
      [.line ("Using default Ollama host: " ++ defaultLlmHost),
       .line ("Using default translation language: " ++ defaultTranslationLanguage),
       .line "null"] ∧
    marshalResults [] = "null" :=
  ⟨rfl, rfl, rfl⟩

/-- C2 (amended): on every successful run the program writes, after the
default-resolution notice lines (none when both settings were given), a
single line holding `MarshalIndent` of the result list — a 4-space-indented
JSON array of objects with key order `source` then `translation`, one per
segment in order, when at least one segment was detected, and the literal
`null` when the segment list is empty — and exits with status 0. -/
theorem c2_success_output (text : String) (cfg : Config) (o : Oracle)
    (rs : List ResultItem)
    (h : (pipeline o (cfgHost cfg) (cfgLang cfg) text).2 = .ok rs) :
    (analiseRun text cfg o).exitCode = 0 ∧
    (analiseRun text cfg o).events = cfgNotices cfg ++ [.line (marshalResults rs)] := by
  simp [analiseRun, h]

/-- C2 witness: with both flags set, the successful `oStubAB` run prints
exactly the indented two-item array and exits 0. -/
theorem c2_witness :
    (analiseRun "x" cfgFlags oStubAB).exitCode = 0 ∧
    (analiseRun "x" cfgFlags oStubAB).events =
      cfgNotices cfgFlags ++ [.line (marshalResults [⟨"a", "A"⟩, ⟨"b", "B"⟩])] :=
  c2_success_output "x" cfgFlags oStubAB [⟨"a", "A"⟩, ⟨"b", "B"⟩]
    (c1_stub_pipeline_output "h" "L" "x" oStubAB
      "\x7b\"response\": \"A\"\x7d" "\x7b\"response\": \"B\"\x7d"
      rfl rfl rfl rfl rfl)

/-- C3: whenever segmentation succeeded, every translation before segment
`s` succeeded, and the translation call for `s` returns a non-200 status,
the run prints only the notices and the status diagnostic — no result
items, including the already-translated ones, reach the output — and exits
with status 1. -/
theorem c3_translation_status_abort (text : String) (cfg : Config) (o : Oracle)
    (pre : List String) (s : String) (post : List String) (c : Nat) (b : String)
    (hseg : segmentationOutcome o (cfgHost cfg) text = .ok (pre ++ s :: post))
    (hpre : ∀ x ∈ pre, ∃ t, transStep o (cfgHost cfg) (cfgLang cfg) x = .ok t)
    (hs : o (cfgHost cfg) (transBody (cfgLang cfg) s) = .success c b)
    (hc : c ≠ 200) :
    (analiseRun text cfg o).exitCode = 1 ∧
    (analiseRun text cfg o).events =
      cfgNotices cfg ++
        [.line ("Error: received status code " ++ toString c ++ " for translation")] := by
  have hstep : transStep o (cfgHost cfg) (cfgLang cfg) s = .error (.statusTrans c) := by
    simp [transStep, hs, hc]
  have hloop := translateLoop_error_after o (cfgHost cfg) (cfgLang cfg) s post
    (.statusTrans c) pre hpre hstep
  have hp : (pipeline o (cfgHost cfg) (cfgLang cfg) text).2 = .error (.statusTrans c) := by
    simp [pipeline, hseg, hloop]
  have := analiseRun_error text cfg o (.statusTrans c) hp
  rw [this]
  exact ⟨rfl, rfl⟩

/-- C3 witness: two segments `a`, `b`; `a` translates, the call for `b`
gets HTTP 500; the run exits 1 printing only the status diagnostic. -/
theorem c3_witness :
    (analiseRun "x" cfgFlags oStatusFail).exitCode = 1 ∧
    (analiseRun "x" cfgFlags oStatusFail).events =
      cfgNotices cfgFlags ++
        [.line ("Error: received status code " ++ toString 500 ++ " for translation")] :=
  c3_translation_status_abort "x" cfgFlags oStatusFail ["a"] "b" [] 500 "oops"
    rfl
    (fun x hx => by
      have hxa : x = "a" := by simpa using hx
      exact ⟨"A", by rw [hxa]; rfl⟩)
    rfl
    (by decide)

/-- C4 counterexample: the inner text `null` is not valid JSON
array-of-strings syntax, yet with it the run does not fail: Go unmarshals
`null` into a nil `[]string`, so the run succeeds (exit 0), makes only the
segmentation call, and prints `null`. -/
theorem c4_counterexample :
    specStringArraySyntax "null" = false ∧
    decodeEnvelope "\x7b\"response\": \"null\"\x7d" = .ok "null" ∧
    (analiseRun "t" cfgFlags oNullSeg).exitCode = 0 ∧
    (analiseRun "t" cfgFlags oNullSeg).events = [.line "null"] ∧
    (analiseRun "t" cfgFlags oNullSeg).calls.length = 1 :=
  ⟨rfl, rfl, rfl, rfl, rfl⟩

/-- C4 (amended): when the outer envelope decodes but the inner `response`
text fails Go's `[]string` unmarshal (in particular any text that is valid
neither as a JSON array with only string or null elements nor as the JSON
literal `null`, e.g. `not json`), the run prints only the notices and the
array-decode diagnostic, issues no translation call, emits zero result
items, and exits with status 1. -/
theorem c4_decode_error_abort (text : String) (cfg : Config) (o : Oracle)
    (body inner : String)
    (hseg : o (cfgHost cfg) (segBody text) = .success 200 body)
    (hd : decodeEnvelope body = .ok inner)
    (ha : decodeStringArray inner = .error ()) :
    analiseRun text cfg o =
      ⟨cfgNotices cfg ++ [.decodeDiag "Error parsing response array:"], 1,
       [(cfgHost cfg, segBody text)]⟩ := by
  have h1 := segStep_ok o (cfgHost cfg) text body inner hseg hd
  have h2 : segmentationOutcome o (cfgHost cfg) text = .error .decodeArrSeg := by
    simp [segmentationOutcome, h1, ha]
  have hp : pipeline o (cfgHost cfg) (cfgLang cfg) text =
      ([(cfgHost cfg, segBody text)], .error .decodeArrSeg) := by
    simp [pipeline, h2]
  simp [analiseRun, hp, failureEvent]

/-- C4 witness: the inner text `not json` fails the `[]string` decode and
the run aborts after the single segmentation call. -/
theorem c4_witness :
    analiseRun "t" cfgFlags oNotJsonSeg =
      ⟨cfgNotices cfgFlags ++ [.decodeDiag "Error parsing response array:"], 1,
       [(cfgHost cfgFlags, segBody "t")]⟩ :=
  c4_decode_error_abort "t" cfgFlags oNotJsonSeg
    "\x7b\"response\": \"not json\"\x7d" "not json" rfl rfl rfl

/-- C5: the run is deterministic — two runs with identical text and
configuration against endpoints that answer every request identically
produce identical observable results (output text, exit status, calls). -/
theorem c5_deterministic (text : String) (cfg : Config) (o1 o2 : Oracle)
    (h : ∀ url body, o1 url body = o2 url body) :
    analiseRun text cfg o1 = analiseRun text cfg o2 := by
  have : o1 = o2 := funext fun u => funext fun b => h u b
  rw [this]

/-- C5 witness: the deterministic stub compared with itself. -/
theorem c5_witness : analiseRun "t" cfgFlags oDown = analiseRun "t" cfgFlags oDown :=
  c5_deterministic "t" cfgFlags oDown oDown (fun _ _ => rfl)

/-- C6: when the segmentation POST fails at transport level, the run
prints only the notices and the human-readable transport diagnostic (no
output JSON) and exits with status 1. -/
theorem c6_transport_abort (text : String) (cfg : Config) (o : Oracle) (m : String)
    (h : o (cfgHost cfg) (segBody text) = .transportErr m) :
    (analiseRun text cfg o).exitCode = 1 ∧
    (analiseRun text cfg o).events =
      cfgNotices cfg ++ [.line ("Error making HTTP request: " ++ m)] := by
  have h1 : segStep o (cfgHost cfg) text = .error (.transportSeg m) := by
    simp [segStep, h]
  have h2 : segmentationOutcome o (cfgHost cfg) text = .error (.transportSeg m) := by
    simp [segmentationOutcome, h1]
  have hp : (pipeline o (cfgHost cfg) (cfgLang cfg) text).2 = .error (.transportSeg m) := by
    simp [pipeline, h2]
  rw [analiseRun_error text cfg o (.transportSeg m) hp]
  exact ⟨rfl, rfl⟩

/-- C6 witness: the unreachable endpoint `oDown`. -/
theorem c6_witness :
    (analiseRun "t" cfgFlags oDown).exitCode = 1 ∧
    (analiseRun "t" cfgFlags oDown).events =
      cfgNotices cfgFlags ++
        [.line ("Error making HTTP request: " ++ "connection refused")] :=
  c6_transport_abort "t" cfgFlags oDown "connection refused" rfl

/-- C7 counterexample: a flag explicitly set to the empty string does not
win over the environment variable — resolution yields the environment
value, not the flag's (empty) value. -/
theorem c7_counterexample :
    (resolveSetting (getStringFlag (some "")) "http://envhost:9/api" defaultLlmHost
      hostNoticeLabel).1 = "http://envhost:9/api" ∧
    (resolveSetting (getStringFlag (some "")) "http://envhost:9/api" defaultLlmHost
      hostNoticeLabel).1 ≠ getStringFlag (some "") :=
  ⟨rfl, by decide⟩

/-- C7 (amended): each setting is resolved flag → environment variable →
literal default, where a flag counts as set only when its value is
non-empty: a non-empty flag value always wins, an empty flag value falls
to the environment variable and then to the literal default
(`http://localhost:11434/api/generate`, `en-US`); with nothing set the
segmentation POST goes to the default endpoint. -/
theorem c7_resolution_order (v e d l : String) (hv : v ≠ "") :
    (resolveSetting v e d l).1 = v ∧
    (resolveSetting "" e d l).1 = (if e = "" then d else e) ∧
    cfgHost cfgDefaults = defaultLlmHost ∧
    cfgLang cfgDefaults = defaultTranslationLanguage ∧
    defaultLlmHost = "http://localhost:11434/api/generate" ∧
    defaultTranslationLanguage = "en-US" ∧
    (∀ text : String, ∀ o : Oracle,
      (analiseRun text cfgDefaults o).calls.head? = some (defaultLlmHost, segBody text)) := by
  refine ⟨by simp [resolveSetting, hv],
    by by_cases he : e = "" <;> simp [resolveSetting, he],
    rfl, rfl, rfl, rfl, ?_⟩
  intro text o
  rw [analiseRun_calls]
  exact pipeline_calls_head o (cfgHost cfgDefaults) (cfgLang cfgDefaults) text

/-- C7 witness: resolution at concrete non-empty flag and environment
values. -/
theorem c7_witness :
    (resolveSetting "http://flaghost:1/x" "http://envhost:2/y" defaultLlmHost
      hostNoticeLabel).1 = "http://flaghost:1/x" ∧
    (resolveSetting "" "http://envhost:2/y" defaultLlmHost hostNoticeLabel).1 =
      (if "http://envhost:2/y" = "" then defaultLlmHost else "http://envhost:2/y") ∧
    cfgHost cfgDefaults = defaultLlmHost ∧
    cfgLang cfgDefaults = defaultTranslationLanguage ∧
    defaultLlmHost = "http://localhost:11434/api/generate" ∧
    defaultTranslationLanguage = "en-US" ∧
    (∀ text : String, ∀ o : Oracle,
      (analiseRun text cfgDefaults o).calls.head? = some (defaultLlmHost, segBody text)) :=
  c7_resolution_order "http://flaghost:1/x" "http://envhost:2/y" defaultLlmHost
    hostNoticeLabel (by decide)

/-- C8: a 200-status translation response whose body is a JSON object
without any `response` key (for example `{}`) is not an error: the
translation step yields the empty string and the loop appends the item
`{source: s, translation: ""}` and continues with the remaining
segments. -/
theorem c8_missing_field_empty_translation (o : Oracle) (url lang s b : String)
    (fs : List (String × JVal)) (rest : List String)
    (hb : o url (transBody lang s) = .success 200 b)
    (hp : parseJSON b = some (.jobj fs))
    (hnone : ∀ p ∈ fs, keyMatchesResponse p.1 = false) :
    transStep o url lang s = .ok "" ∧
    (translateLoop o url lang (s :: rest)).2 =
      Except.map (fun items => ⟨s, ""⟩ :: items) (translateLoop o url lang rest).2 := by
  have hd : decodeEnvelope b = .ok "" := by
    simp [decodeEnvelope, hp]
    exact envFieldFold_no_match "" fs hnone
  have ht := transStep_ok o url lang s b "" hb hd
  refine ⟨ht, ?_⟩
  cases h2 : (translateLoop o url lang rest).2 <;>
    simp [translateLoop, ht, h2, Except.map]

/-- C8 witness: oracle `oEmptyObj` answers the translation call for the
single segment `a` with `{}`; the step yields `""` and the singleton loop
produces the item with empty translation. -/
theorem c8_witness :
    transStep oEmptyObj "h" "L" "a" = .ok "" ∧
    (translateLoop oEmptyObj "h" "L" ["a"]).2 =
      Except.map (fun items => (⟨"a", ""⟩ : ResultItem) :: items)
        (translateLoop oEmptyObj "h" "L" []).2 :=
  c8_missing_field_empty_translation oEmptyObj "h" "L" "a" "\x7b\x7d" [] []
    rfl rfl (fun p hp => absurd hp (List.not_mem_nil p))

/-- C9: when the inner segmentation payload is the empty JSON array `[]`,
the run makes zero translation calls (only the segmentation POST), prints
the literal `null` — the `MarshalIndent` serialization of the nil result
slice, not the empty array `[]` — as a line, and exits with status 0. -/
theorem c9_empty_array_prints_null (text : String) (cfg : Config) (o : Oracle)
    (b inner : String)
    (hseg : o (cfgHost cfg) (segBody text) = .success 200 b)
    (hd : decodeEnvelope b = .ok inner)
    (hi : parseJSON inner = some (.jarr [])) :
    analiseRun text cfg o =
      ⟨cfgNotices cfg ++ [.line "null"], 0, [(cfgHost cfg, segBody text)]⟩ ∧
    marshalResults [] = "null" ∧
    marshalResults [] ≠ "[]" := by
  have ha : decodeStringArray inner = .ok [] := by
    simp [decodeStringArray, hi, decodeStringElems]
  have h2 := segmentationOutcome_ok o (cfgHost cfg) text b inner [] hseg hd ha
  have hp : pipeline o (cfgHost cfg) (cfgLang cfg) text =
      ([(cfgHost cfg, segBody text)], .ok []) := by
    simp [pipeline, h2, translateLoop]
  refine ⟨?_, rfl, by decide⟩
  simp [analiseRun, hp, marshalResults]

/-- C9 witness: the `oEmptySeg` stub with both flags set. -/
theorem c9_witness :
    analiseRun "t" cfgFlags oEmptySeg =
      ⟨cfgNotices cfgFlags ++ [.line "null"], 0, [(cfgHost cfgFlags, segBody "t")]⟩ ∧
    marshalResults [] = "null" ∧
    marshalResults [] ≠ "[]" :=
  c9_empty_array_prints_null "t" cfgFlags oEmptySeg
    "\x7b\"response\": \"[]\"\x7d" "[]" rfl rfl rfl

/-- C10: a flag explicitly set to the empty string is indistinguishable
from an absent flag: `GetString` yields `""` either way, so the whole run
behaves identically for every text, environment and endpoint, falling
through to the environment variable and then the literal default. -/
theorem c10_empty_flag_like_absent (text eh el : String) (o : Oracle) :
    getStringFlag (some "") = getStringFlag none ∧
    analiseRun text ⟨some "", some "", eh, el⟩ o = analiseRun text ⟨none, none, eh, el⟩ o :=
  ⟨rfl, rfl⟩

end StarterGoCli
